import Mathlib

/-!
# OB-Xf save dialog (`src/gui/SaveDialog.h`)

A shallow embedding of `struct SaveDialog`: the validation and path resolution of
`doSave`, the form population of `getPatchInfo`, the skin bounds lookup of `resized`,
the content area of `getContentArea` and the background selection of `paint`.

Toolkit types (strings, rectangles, the combo box) are modelled by small executable
definitions that follow the toolkit's documented behaviour; everything the dialog
reaches through `editor` is either a field of `State` (what the dialog can change) or
a field of `Env` (what it can only read). Two toolkit operations are not modelled but
taken as fields of `Env`: the path resolution `getChildFile`, and the arithmetic of
the floating-point scale factor with its conversion to `int`.
-/

namespace OBXf

/-! ## Strings -/

/-- Three-way comparison of two characters by code point (the toolkit's `compare`). -/
def compareChars (c1 c2 : Char) : Int :=
  if c1.toNat < c2.toNat then -1 else if c2.toNat < c1.toNat then 1 else 0

/-- Character comparison ignoring case: equal characters compare equal, different
characters are compared after upper-casing (here the upper-casing of the letters a to z;
the statements below use the comparison only through its result being zero or not). -/
def compareIgnoreCaseChar (c1 c2 : Char) : Int :=
  if c1 ≠ c2 then compareChars c1.toUpper c2.toUpper else 0

/-- Character-by-character walk of `String::compareIgnoreCase`: the first differing
position decides, a string that ends first is the smaller one. -/
def compareIgnoreCaseList : List Char → List Char → Int
  | [], [] => 0
  | [], _ :: _ => -1
  | _ :: _, [] => 1
  | a :: as, b :: bs =>
    if compareIgnoreCaseChar a b ≠ 0 then compareIgnoreCaseChar a b
    else compareIgnoreCaseList as bs

/-- The call `a.compareIgnoreCase (b)`; zero means equal up to letter case. -/
def compareIgnoreCase (a b : String) : Int :=
  compareIgnoreCaseList a.data b.data

/-- The call `s.isNotEmpty ()`. -/
def isNotEmpty (s : String) : Bool := !s.isEmpty

/-! ## Files -/

/-- A file, identified by its full path name. -/
structure File where
  fullPath : String
  deriving DecidableEq, Repr

/-- Appends the path separator unless the path already ends with it (the separator is
`/`, as in the paths of the specification). -/
def addTrailingSeparator (p : String) : String :=
  if p.data.getLast? = some '/' then p else p ++ "/"

/-- A plain name: a non-empty text other than `.` and `..` that holds no path
separator (`/` or backslash), no drive colon and no NUL and does not start with `~`. For such a child
name the toolkit documents `getChildFile` as the directory path, a separator, and the
name. -/
def isPlainName (n : String) : Bool :=
  !n.isEmpty &&
    n.data.all (fun c => c != '/' && c != Char.ofNat 92 && c != ':' && c != Char.ofNat 0) &&
    n != "." && n != ".." && n.data.head? != some '~'

/-- The call `f.getFullPathName ()`. -/
def File.getFullPathName (f : File) : String := f.fullPath

/-! ## Rectangles and the display scale factor -/

/-- An integer point. -/
structure Point where
  x : Int
  y : Int
  deriving DecidableEq, Repr

/-- An integer rectangle, `juce::Rectangle<int>`. -/
structure Rectangle where
  x : Int
  y : Int
  w : Int
  h : Int
  deriving DecidableEq, Repr

/-- Accessor `getX`. -/
def Rectangle.getX (r : Rectangle) : Int := r.x

/-- Accessor `getY`. -/
def Rectangle.getY (r : Rectangle) : Int := r.y

/-- Accessor `getWidth`. -/
def Rectangle.getWidth (r : Rectangle) : Int := r.w

/-- Accessor `getHeight`. -/
def Rectangle.getHeight (r : Rectangle) : Int := r.h

/-- Centre of a rectangle: `(x + w / 2, y + h / 2)` with C++ integer division. -/
def Rectangle.getCentre (r : Rectangle) : Point :=
  ⟨r.x + r.w.tdiv 2, r.y + r.h.tdiv 2⟩

/-- Same-size rectangle whose centre is the given point:
`(c.x - w / 2, c.y - h / 2, w, h)` with C++ integer division. -/
def Rectangle.withCentre (r : Rectangle) (c : Point) : Rectangle :=
  ⟨c.x - r.w.tdiv 2, c.y - r.h.tdiv 2, r.w, r.h⟩

/-- The value of the display scale factor, a floating-point number in the source: the
fraction `num / den` with `den > 0` (every floating-point value is such a fraction).
Only the value is recorded here; the floating-point products with it are fields of
`Env`. -/
structure Scale where
  num : Int
  den : Nat
  deriving DecidableEq, Repr

/-! ## The combo box -/

/-- One entry of the combo box menu. -/
structure ComboItem where
  text : String
  itemID : Int
  deriving DecidableEq, Repr

/-- The category selector, `juce::ComboBox`: its menu entries in insertion order, the
current id and the text shown in its label. -/
structure ComboBox where
  items : List ComboItem
  currentId : Int
  labelText : String
  deriving DecidableEq, Repr

/-- First menu entry with the given id; id 0 never names an entry. -/
def ComboBox.getItemForId (cb : ComboBox) (id : Int) : Option ComboItem :=
  if id ≠ 0 then cb.items.find? (fun it => it.itemID = id) else none

/-- The call `addItem (text, id)`: entries with an empty text or id 0 are not added. -/
def ComboBox.addItem (cb : ComboBox) (text : String) (id : Int) : ComboBox :=
  if isNotEmpty text ∧ id ≠ 0 then { cb with items := cb.items ++ [⟨text, id⟩] } else cb

/-- The call `getText ()`: the label text. -/
def ComboBox.getText (cb : ComboBox) : String := cb.labelText

/-- The call `setSelectedId (id, dontSendNotification)`: the label shows the text of
the entry with that id, or the empty text when there is none. -/
def ComboBox.setSelectedId (cb : ComboBox) (id : Int) : ComboBox :=
  let newItemText := match cb.getItemForId id with
    | some it => it.text
    | none => ""
  if cb.currentId ≠ id ∨ cb.labelText ≠ newItemText then
    { cb with labelText := newItemText, currentId := id }
  else cb

/-- The call `getSelectedId ()`: the current id when it names an entry whose text is
the label text, and 0 otherwise. -/
def ComboBox.getSelectedId (cb : ComboBox) : Int :=
  match cb.getItemForId cb.currentId with
  | some it => if cb.getText = it.text then it.itemID else 0
  | none => 0

/-! ## The patch, the environment and the dialog state -/

/-- The metadata of the active program (patch). -/
structure Program where
  name : String
  author : String
  license : String
  category : String
  project : String
  deriving DecidableEq, Repr

/-- A message box request: title and message of `showMessageBoxAsync`. -/
structure Alert where
  title : String
  message : String
  deriving DecidableEq, Repr

/-- Natural size of a drawable. -/
structure Drawable where
  width : Int
  height : Int
  deriving DecidableEq, Repr

/-- What the dialog reads from its surroundings and cannot change. `INIT_PATCH_NAME`
and `availableCategories` are declared outside this file of the repository and are
taken as parameters; `savePatch` is the result of the external write for a path.

`getChildFile f rel` is the toolkit call `f.getChildFile (rel)`; it is a parameter, so
that nothing is assumed about how it resolves absolute arguments, `.` and `..`, `~` or
repeated separators.

`mulToInt d` is the C++ expression `d * sc` and `mulAddToInt d o` the expression
`d * sc + o`, for ints `d`, `o` and the scale factor `sc`, each passed where an `int` is
expected: the floating-point result converted to `int`. They are parameters because
the result depends on the floating-point type of `impliedScaleFactor ()` (declared
outside this file) and on the rounding of the product. -/
structure Env where
  INIT_PATCH_NAME : String
  availableCategories : List String
  userPatchFolder : File
  getChildFile : File → String → File
  savePatch : File → Bool
  impliedScaleFactor : Scale
  mulToInt : Int → Int
  mulAddToInt : Int → Int → Int
  hasImageFor : String → Bool
  isSVG : String → Bool
  embeddedVectorDrawable : String → Option Drawable

/-- The dialog together with the parts of the editor it writes to. -/
structure State where
  saveDialogSVG : Option Drawable
  hasSkinImage : Bool
  boundsMap : List (String × Rectangle)
  name : String
  author : String
  license : String
  project : String
  category : ComboBox
  visible : Bool
  width : Int
  height : Int
  nameBounds : Rectangle
  authorBounds : Rectangle
  projectBounds : Rectangle
  categoryBounds : Rectangle
  licenseBounds : Rectangle
  cancelBounds : Rectangle
  okBounds : Rectangle
  activeProgram : Program
  lastPatchAuthor : String
  lastPatchLicense : String
  savePatchCalls : List File
  lastLoadedResets : List (String × Bool)
  alerts : List Alert
  log : List String

/-- The sentinel id of the entry "None". -/
def noCatID : Int := 1000

/-- The key of the dialog background asset. -/
def bgKey : String := "label-bg-save-patch"

/-- The macro `OBLOG (patchSave, msg)`: a diagnostic line. -/
def State.oblog (s : State) (msg : String) : State :=
  { s with log := s.log ++ [msg] }

/-- The call `showMessageBoxAsync (WarningIcon, title, message)`. -/
def State.showMessageBoxAsync (s : State) (a : Alert) : State :=
  { s with alerts := s.alerts ++ [a] }

/-- The alert of the reserved-name rejection. -/
def reservedNameAlert (env : Env) : Alert :=
  ⟨"Reserved Patch Name",
   String.singleton (Char.ofNat 34) ++ env.INIT_PATCH_NAME ++ String.singleton (Char.ofNat 34) ++
     " is a reserved patch name for internal use. Please choose " ++
     "another name for your patch!"⟩

/-- The alert of the project/category collision rejection. -/
def invalidProjectAlert : Alert :=
  ⟨"Invalid Project Name",
   "Project name cannot be any of the available patch category names. Please " ++
     "choose another name for your project!"⟩

/-! ## Construction and reset -/

/-- The method `resetState`. -/
def resetState (env : Env) (s : State) : State :=
  let s := { s with hasSkinImage := false }
  let s := if env.hasImageFor bgKey then { s with hasSkinImage := true } else s
  { s with boundsMap := [] }

/-- The constructor loop `for (auto &c : availableCategories ()) addItem (c, idx++)`. -/
def addCategories (cb : ComboBox) : List String → Int → ComboBox
  | [], _ => cb
  | c :: cs, idx => addCategories (cb.addItem c idx) cs (idx + 1)

/-- The category selector as the constructor fills it: "None" under the sentinel id,
then the categories under ids counting from 1. -/
def constructCategory (env : Env) : ComboBox :=
  let category : ComboBox := ⟨[], 0, ""⟩
  let category := category.addItem "None" noCatID
  addCategories category env.availableCategories 1

/-- The constructor, given the editor state the dialog is attached to. The text fields
start empty and the dialog starts hidden with empty bounds. -/
def construct (env : Env) (pr : Program) (lastAuthor lastLicense : String) : State :=
  let z : Rectangle := ⟨0, 0, 0, 0⟩
  let s : State :=
    { saveDialogSVG := env.embeddedVectorDrawable bgKey
      hasSkinImage := false
      boundsMap := []
      name := ""
      author := ""
      license := ""
      project := ""
      category := ⟨[], 0, ""⟩
      visible := false
      width := 0
      height := 0
      nameBounds := z
      authorBounds := z
      projectBounds := z
      categoryBounds := z
      licenseBounds := z
      cancelBounds := z
      okBounds := z
      activeProgram := pr
      lastPatchAuthor := lastAuthor
      lastPatchLicense := lastLicense
      savePatchCalls := []
      lastLoadedResets := []
      alerts := []
      log := [] }
  let s := resetState env s
  { s with category := constructCategory env }

/-! ## Populating the form -/

/-- The matching loop of `getPatchInfo`: the first category equal to the stored one is
selected under its 1-based index and the scan stops. -/
def selectCategoryLoop (prCategory : String) (cb : ComboBox) : List String → Int → ComboBox
  | [], _ => cb
  | c :: cs, idx =>
    if prCategory = c then cb.setSelectedId idx
    else selectCategoryLoop prCategory cb cs (idx + 1)

/-- The method `getPatchInfo`. -/
def getPatchInfo (env : Env) (s : State) : State :=
  let pr := s.activeProgram
  let s := { s with name := pr.name }
  let s :=
    if isNotEmpty pr.author then { s with author := pr.author }
    else { s with author := s.lastPatchAuthor }
  let s :=
    if isNotEmpty pr.license then { s with license := pr.license }
    else { s with license := s.lastPatchLicense }
  let s := { s with project := pr.project }
  let s := { s with category := s.category.setSelectedId noCatID }
  { s with category := selectCategoryLoop pr.category s.category env.availableCategories 1 }

/-! ## Saving -/

/-- The validation loop of `doSave`: some category equals the project name up to
letter case. -/
def projectConflicts (pj : String) : List String → Bool
  | [] => false
  | c :: cs => if compareIgnoreCase c pj = 0 then true else projectConflicts pj cs

/-- The directory `doSave` builds before the name is appended. -/
def saveFolder (env : Env) (s : State) : File :=
  let pth := env.userPatchFolder
  if isNotEmpty s.project then env.getChildFile pth s.project
  else if s.category.getSelectedId ≠ noCatID then env.getChildFile pth s.category.getText
  else pth

/-- The method `doSave`. -/
def doSave (env : Env) (s : State) : State :=
  let s := s.oblog "Starting patch save"
  let pth := saveFolder env s
  if s.name = env.INIT_PATCH_NAME then
    s.showMessageBoxAsync (reservedNameAlert env)
  else
    let pth := env.getChildFile pth (s.name ++ ".fxp")
    let s := s.oblog ("Saving patch to " ++ pth.getFullPathName)
    let pj := s.project
    if projectConflicts pj env.availableCategories then
      s.showMessageBoxAsync invalidProjectAlert
    else
      let pr := s.activeProgram
      let pr := { pr with name := s.name }
      let pr := { pr with author := s.author }
      let s := { s with lastPatchAuthor := s.author }
      let pr := { pr with license := s.license }
      let s := { s with lastPatchLicense := s.license }
      let pr := { pr with category :=
        if s.category.getSelectedId = noCatID then "" else s.category.getText }
      let pr := { pr with project := s.project }
      let s := { s with activeProgram := pr }
      let s := { s with savePatchCalls := s.savePatchCalls ++ [pth] }
      let s := if !env.savePatch pth then s.oblog "Failed to save patch" else s
      let s := { s with lastLoadedResets := s.lastLoadedResets ++ [(pr.name, true)] }
      { s with visible := false }

/-- The method `doQuickSave`. -/
def doQuickSave (env : Env) (s : State) : State :=
  doSave env (getPatchInfo env s)

/-! ## Layout and painting -/

/-- The call `boundsMap.find (key)`. -/
def mapFind (m : List (String × Rectangle)) (key : String) : Option (String × Rectangle) :=
  m.find? (fun p => p.1 = key)

/-- The lambda `lookup` of `resized`. -/
def lookup (s : State) (key : String) (dx dy dw dh : Int) : Rectangle :=
  match mapFind s.boundsMap key with
  | some it => it.2
  | none => ⟨dx, dy, dw, dh⟩

/-- The call `getLocalBounds ()` of the dialog. -/
def getLocalBounds (s : State) : Rectangle := ⟨0, 0, s.width, s.height⟩

/-- The unscaled dialog size chosen at the start of `getContentArea`. -/
def dialogSize (s : State) : Int × Int :=
  match mapFind s.boundsMap "savePatchDialog" with
  | some it => (it.2.getWidth, it.2.getHeight)
  | none =>
    match s.saveDialogSVG with
    | some d => (d.width, d.height)
    | none => (246, 328)

/-- The method `getContentArea`. -/
def getContentArea (env : Env) (s : State) : Rectangle :=
  let d := dialogSize s
  (Rectangle.mk 0 0 (env.mulToInt d.1) (env.mulToInt d.2)).withCentre
    (getLocalBounds s).getCentre

/-- The lambda `toR` of `resized`. -/
def toR (env : Env) (bx : Rectangle) (r : Rectangle) : Rectangle :=
  ⟨env.mulAddToInt r.getX bx.getX, env.mulAddToInt r.getY bx.getY,
   env.mulToInt r.getWidth, env.mulToInt r.getHeight⟩

/-- The bounds a child component takes on `setBounds`: negative sizes become 0. -/
def setBounds (r : Rectangle) : Rectangle := ⟨r.x, r.y, max r.w 0, max r.h 0⟩

/-- The seven rectangles `resized` obtains from `lookup`, before scaling. -/
structure ControlBounds where
  nameBounds : Rectangle
  authorBounds : Rectangle
  projectBounds : Rectangle
  catBounds : Rectangle
  licBounds : Rectangle
  cancelBounds : Rectangle
  okBounds : Rectangle
  deriving DecidableEq, Repr

/-- The seven `lookup` calls of `resized`. -/
def resolveBounds (s : State) : ControlBounds :=
  { nameBounds := lookup s "savePatchNameLabel" 22 29 200 31
    authorBounds := lookup s "savePatchAuthorLabel" 22 90 200 31
    projectBounds := lookup s "savePatchProjectLabel" 22 151 200 31
    catBounds := lookup s "savePatchCategoryMenu" 25 212 90 31
    licBounds := lookup s "savePatchLicenseLabel" 126 212 96 31
    cancelBounds := lookup s "savePatchCancelButton" 129 272 23 35
    okBounds := lookup s "savePatchOKButton" 92 272 23 35 }

/-- The method `resized`. -/
def resized (env : Env) (s : State) : State :=
  let bx := getContentArea env s
  let b := resolveBounds s
  { s with
    nameBounds := setBounds (toR env bx b.nameBounds)
    authorBounds := setBounds (toR env bx b.authorBounds)
    projectBounds := setBounds (toR env bx b.projectBounds)
    categoryBounds := setBounds (toR env bx b.catBounds)
    licenseBounds := setBounds (toR env bx b.licBounds)
    cancelBounds := setBounds (toR env bx b.cancelBounds)
    okBounds := setBounds (toR env bx b.okBounds) }

/-- One drawing request issued by `paint`; `fillAll` is the translucent black overlay
over the whole parent. -/
inductive DrawOp where
  | fillAll
  | drawSkinImage (w h : Int) (dest : Rectangle)
  | drawSkinVector (sc : Scale) (tx ty : Int)
  | drawEmbeddedVector (d : Drawable) (sc : Scale) (tx ty : Int)
  | setColour (red green blue : Nat)
  | fillRect (r : Rectangle)
  | drawRect (r : Rectangle) (thickness : Nat)
  deriving DecidableEq, Repr

/-- The method `paint`: the drawing requests in order. -/
def paint (env : Env) (s : State) : List DrawOp :=
  let sc := env.impliedScaleFactor
  let r := getContentArea env s
  DrawOp.fillAll ::
    (if s.hasSkinImage then
      if env.isSVG bgKey then [DrawOp.drawSkinVector sc r.getX r.getY]
      else [DrawOp.drawSkinImage r.getWidth r.getHeight r]
    else
      match s.saveDialogSVG with
      | some d => [DrawOp.drawEmbeddedVector d sc r.getX r.getY]
      | none =>
        [DrawOp.setColour 0xAA 0xAA 0xAA, DrawOp.fillRect r,
          DrawOp.setColour 0xFF 0xFF 0xFF, DrawOp.drawRect r 3])

/-! ## Sample inputs -/

/-- The path resolution used by the sample environments. It follows the documented
behaviour of the toolkit call on the two kinds of argument it is evaluated on below:
an absolute argument (one that starts with the separator and has no `.` or `..`
segment and no repeated or trailing separator) is itself the result, and a plain name
is appended to the directory path after a separator. -/
def sampleGetChildFile (f : File) (rel : String) : File :=
  if rel.data.head? = some '/' then ⟨rel⟩ else ⟨addTrailingSeparator f.fullPath ++ rel⟩

/-- The documented behaviour of `getChildFile` on plain names: the directory path, a
separator unless the path already ends with one, and the name. -/
def resolvesPlainNames (env : Env) : Prop :=
  ∀ (f : File) (n : String), isPlainName n = true →
    env.getChildFile f n = ⟨addTrailingSeparator f.fullPath ++ n⟩

/-- A sample environment: two categories, patch root `/patches`, no skin, and the scale
factor 1, at which the products of the small sizes used below are the sizes
themselves. -/
def sampleEnv : Env :=
  { INIT_PATCH_NAME := "Init"
    availableCategories := ["Bass", "Lead"]
    userPatchFolder := ⟨"/patches"⟩
    getChildFile := sampleGetChildFile
    savePatch := fun _ => true
    impliedScaleFactor := ⟨1, 1⟩
    mulToInt := fun d => d
    mulAddToInt := fun d o => d + o
    hasImageFor := fun _ => false
    isSVG := fun _ => false
    embeddedVectorDrawable := fun _ => none }

/-- The sample environment with a failing external write. -/
def failingEnv : Env := { sampleEnv with savePatch := fun _ => false }

/-- A freshly constructed dialog over a patch named "MyLead" in category "Lead". -/
def sampleState : State :=
  construct sampleEnv ⟨"MyLead", "", "", "Lead", ""⟩ "Ada" "CC0"

/-- The form of scenario A: name "MyLead", category "Lead" selected, project empty. -/
def formA : State :=
  { sampleState with
    name := "MyLead"
    author := "Ada"
    license := "CC0"
    category := sampleState.category.setSelectedId 2
    visible := true }

/-- The form of scenario B: as scenario A with project "MyProj". -/
def formB : State := { formA with project := "MyProj" }

/-- The form of scenario C: the reserved name, with a project colliding with a category. -/
def formC : State := { formA with name := "Init", project := "LEAD" }

/-- The form of scenario D: project "bass" against the category "Bass". -/
def formD : State := { formA with project := "bass" }

/-- The form of scenario A with the absolute text `/abs` in the project field. -/
def formAbs : State := { formA with project := "/abs" }

/-- The sample dialog over a patch named `/x` with no category and no project. -/
def slashNameState : State :=
  { sampleState with activeProgram := ⟨"/x", "", "", "", ""⟩ }

/-- The sample dialog laid over an 800 x 600 parent. -/
def shownState : State := { sampleState with width := 800, height := 600, visible := true }

/-- A dialog whose skin moves two controls and sets the dialog size. -/
def skinnedState : State :=
  { shownState with
    boundsMap :=
      [("savePatchOKButton", ⟨10, 20, 30, 40⟩), ("savePatchDialog", ⟨0, 0, 300, 400⟩),
        ("savePatchNameLabel", ⟨1, 2, 3, 4⟩)] }

/-! ## Auxiliary lemmas -/

theorem isNotEmpty_eq_true_iff (t : String) : isNotEmpty t = true ↔ t ≠ "" := by
  unfold isNotEmpty
  rw [Bool.not_eq_true', ← Bool.not_eq_true, String.isEmpty_iff]

theorem isNotEmpty_empty : isNotEmpty "" = false := by decide

theorem isPlainName_ne_empty (n : String) (h : isPlainName n = true) : n ≠ "" := by
  intro hn
  rw [hn] at h
  exact absurd h (by decide)

theorem isPlainName_data (n : String) (h : isPlainName n = true) :
    n.data ≠ [] ∧ ∀ c ∈ n.data, c ≠ '/' := by
  have hne := isPlainName_ne_empty n h
  unfold isPlainName at h
  simp only [Bool.and_eq_true, List.all_eq_true, bne_iff_ne, ne_eq] at h
  obtain ⟨⟨⟨⟨_, hall⟩, _⟩, _⟩, _⟩ := h
  refine ⟨?_, fun c hc => (hall c hc).1.1.1⟩
  intro hd
  apply hne
  cases n
  simp_all

/-- A path that ends with a plain name does not end with the separator, so a separator
is appended to it. -/
theorem addTrailingSeparator_append_plain (x n : String) (h : isPlainName n = true) :
    addTrailingSeparator (x ++ n) = x ++ n ++ "/" := by
  obtain ⟨hdata, hall⟩ := isPlainName_data n h
  unfold addTrailingSeparator
  rw [if_neg]
  rw [String.data_append, List.getLast?_append_of_ne_nil _ hdata]
  intro hl
  exact hall _ (List.mem_of_getLast?_eq_some hl) rfl

/-- The sample path resolution has the documented behaviour on plain names. -/
theorem sampleEnv_resolvesPlainNames : resolvesPlainNames sampleEnv := by
  intro f n h
  obtain ⟨hdata, hall⟩ := isPlainName_data n h
  show sampleGetChildFile f n = _
  unfold sampleGetChildFile
  rw [if_neg]
  intro hh
  cases hd : n.data with
  | nil => exact hdata hd
  | cons c cs =>
    rw [hd] at hh
    simp only [List.head?_cons, Option.some.injEq] at hh
    exact hall c (by rw [hd]; exact List.mem_cons_self _ _) hh

theorem compareChars_eq_zero_iff (c1 c2 : Char) : compareChars c1 c2 = 0 ↔ c1 = c2 := by
  unfold compareChars
  constructor
  · intro h
    have hnat : c1.toNat = c2.toNat := by
      split_ifs at h with h1 h2 <;> omega
    apply Char.ext
    apply UInt32.ext
    exact hnat
  · intro h
    subst h
    simp

theorem compareIgnoreCaseChar_eq_zero_iff (c1 c2 : Char) :
    compareIgnoreCaseChar c1 c2 = 0 ↔ c1.toUpper = c2.toUpper := by
  unfold compareIgnoreCaseChar
  by_cases h : c1 = c2
  · simp [h]
  · simp [h, compareChars_eq_zero_iff]

/-- The comparison ignoring case yields 0 exactly for strings that are equal after
upper-casing every character. -/
theorem compareIgnoreCase_eq_zero_iff (a b : String) :
    compareIgnoreCase a b = 0 ↔ a.data.map Char.toUpper = b.data.map Char.toUpper := by
  unfold compareIgnoreCase
  generalize a.data = l1
  generalize b.data = l2
  induction l1 generalizing l2 with
  | nil =>
    cases l2 <;> simp [compareIgnoreCaseList]
  | cons x xs ih =>
    cases l2 with
    | nil => simp [compareIgnoreCaseList]
    | cons y ys =>
      unfold compareIgnoreCaseList
      by_cases h : compareIgnoreCaseChar x y = 0
      · simp [h, ih, (compareIgnoreCaseChar_eq_zero_iff x y).1 h]
      · have hne : x.toUpper ≠ y.toUpper := fun e =>
          h ((compareIgnoreCaseChar_eq_zero_iff x y).2 e)
        simp [h, hne]

theorem projectConflicts_eq_true_iff (pj : String) (cats : List String) :
    projectConflicts pj cats = true ↔ ∃ c ∈ cats, compareIgnoreCase c pj = 0 := by
  induction cats with
  | nil => simp [projectConflicts]
  | cons c cs ih =>
    unfold projectConflicts
    by_cases hc : compareIgnoreCase c pj = 0
    · simp [hc]
    · simp [hc, ih]

theorem projectConflicts_eq_false_iff (pj : String) (cats : List String) :
    projectConflicts pj cats = false ↔ ∀ c ∈ cats, compareIgnoreCase c pj ≠ 0 := by
  rw [← Bool.not_eq_true, projectConflicts_eq_true_iff]
  simp

/-- When both validation checks pass, `doSave` runs its commit branch. -/
theorem doSave_of_valid (env : Env) (s : State) (hname : s.name ≠ env.INIT_PATCH_NAME)
    (hproj : projectConflicts s.project env.availableCategories = false) :
    doSave env s =
      { s with
        log :=
          if env.savePatch (env.getChildFile (saveFolder env s) (s.name ++ ".fxp")) = true then
            s.log ++ ["Starting patch save", "Saving patch to " ++
              (env.getChildFile (saveFolder env s) (s.name ++ ".fxp")).getFullPathName]
          else
            s.log ++ ["Starting patch save", "Saving patch to " ++
              (env.getChildFile (saveFolder env s) (s.name ++ ".fxp")).getFullPathName,
              "Failed to save patch"]
        activeProgram :=
          { name := s.name
            author := s.author
            license := s.license
            category := if s.category.getSelectedId = noCatID then "" else s.category.getText
            project := s.project }
        lastPatchAuthor := s.author
        lastPatchLicense := s.license
        savePatchCalls := s.savePatchCalls ++ [env.getChildFile (saveFolder env s) (s.name ++ ".fxp")]
        lastLoadedResets := s.lastLoadedResets ++ [(s.name, true)]
        visible := false } := by
  have hf : ∀ l, saveFolder env { s with log := l } = saveFolder env s := fun _ => rfl
  unfold doSave
  cases hsp : env.savePatch (env.getChildFile (saveFolder env s) (s.name ++ ".fxp")) <;>
    simp [State.oblog, State.showMessageBoxAsync, hname, hproj, hf, hsp]

/-- With the reserved name in the name field, `doSave` only raises the reserved-name
alert (and writes one diagnostic line). -/
theorem doSave_of_reserved (env : Env) (s : State) (hname : s.name = env.INIT_PATCH_NAME) :
    doSave env s =
      { s with
        log := s.log ++ ["Starting patch save"]
        alerts := s.alerts ++ [reservedNameAlert env] } := by
  unfold doSave
  simp [State.oblog, State.showMessageBoxAsync, hname]

/-- With a colliding project name (and a name that is not reserved), `doSave` only
raises the invalid-project alert (and writes two diagnostic lines). -/
theorem doSave_of_conflict (env : Env) (s : State) (hname : s.name ≠ env.INIT_PATCH_NAME)
    (hproj : projectConflicts s.project env.availableCategories = true) :
    doSave env s =
      { s with
        log := s.log ++ ["Starting patch save", "Saving patch to " ++
          (env.getChildFile (saveFolder env s) (s.name ++ ".fxp")).getFullPathName]
        alerts := s.alerts ++ [invalidProjectAlert] } := by
  have hf : ∀ l, saveFolder env { s with log := l } = saveFolder env s := fun _ => rfl
  unfold doSave
  simp [State.oblog, State.showMessageBoxAsync, hname, hproj, hf]

/-! ## Claims about `doSave` -/

/-- C1: when the name field is exactly the reserved sentinel name, whatever the other
fields hold, `doSave` raises the reserved-name alert and nothing else happens: no path
reaches `savePatch`, the active patch and the remembered author and license keep their
values, the session is not notified, and the visibility of the dialog is unchanged. -/
theorem doSave_reserved_name_rejected (env : Env) (s : State)
    (hname : s.name = env.INIT_PATCH_NAME) :
    (doSave env s).alerts = s.alerts ++ [reservedNameAlert env] ∧
    (doSave env s).savePatchCalls = s.savePatchCalls ∧
    (doSave env s).activeProgram = s.activeProgram ∧
    (doSave env s).lastPatchAuthor = s.lastPatchAuthor ∧
    (doSave env s).lastPatchLicense = s.lastPatchLicense ∧
    (doSave env s).lastLoadedResets = s.lastLoadedResets ∧
    (doSave env s).visible = s.visible := by
  rw [doSave_of_reserved env s hname]
  exact ⟨rfl, rfl, rfl, rfl, rfl, rfl, rfl⟩

theorem doSave_reserved_name_rejected_witness :
    formC.name = sampleEnv.INIT_PATCH_NAME ∧
    projectConflicts formC.project sampleEnv.availableCategories = true ∧
    (doSave sampleEnv formC).alerts = [reservedNameAlert sampleEnv] ∧
    (doSave sampleEnv formC).savePatchCalls = [] ∧
    (doSave sampleEnv formC).activeProgram = formC.activeProgram :=
  ⟨by decide, by decide,
    (doSave_reserved_name_rejected sampleEnv formC (by decide)).1,
    (doSave_reserved_name_rejected sampleEnv formC (by decide)).2.1,
    (doSave_reserved_name_rejected sampleEnv formC (by decide)).2.2.1⟩

/-- C2: when the name is not the reserved one and the project field equals some entry
of the category list up to letter case, `doSave` raises the invalid-project alert and
nothing else happens: no path reaches `savePatch`, the active patch and the remembered
author and license keep their values, the session is not notified, and the dialog
keeps its visibility (an open dialog stays open). -/
theorem doSave_project_conflict_rejected (env : Env) (s : State)
    (hname : s.name ≠ env.INIT_PATCH_NAME)
    (hproj : ∃ c ∈ env.availableCategories, compareIgnoreCase c s.project = 0) :
    (doSave env s).alerts = s.alerts ++ [invalidProjectAlert] ∧
    (doSave env s).savePatchCalls = s.savePatchCalls ∧
    (doSave env s).activeProgram = s.activeProgram ∧
    (doSave env s).lastPatchAuthor = s.lastPatchAuthor ∧
    (doSave env s).lastPatchLicense = s.lastPatchLicense ∧
    (doSave env s).lastLoadedResets = s.lastLoadedResets ∧
    (doSave env s).visible = s.visible := by
  rw [doSave_of_conflict env s hname ((projectConflicts_eq_true_iff _ _).2 hproj)]
  exact ⟨rfl, rfl, rfl, rfl, rfl, rfl, rfl⟩

theorem doSave_project_conflict_rejected_witness :
    sampleEnv.availableCategories = ["Bass", "Lead"] ∧ formD.project = "bass" ∧
    formD.visible = true ∧
    (doSave sampleEnv formD).alerts = [invalidProjectAlert] ∧
    (doSave sampleEnv formD).savePatchCalls = [] ∧
    (doSave sampleEnv formD).visible = true :=
  ⟨rfl, rfl, rfl,
    (doSave_project_conflict_rejected sampleEnv formD (by decide)
      ⟨"Bass", by decide, by decide⟩).1,
    (doSave_project_conflict_rejected sampleEnv formD (by decide)
      ⟨"Bass", by decide, by decide⟩).2.1,
    (doSave_project_conflict_rejected sampleEnv formD (by decide)
      ⟨"Bass", by decide, by decide⟩).2.2.2.2.2.2⟩

/-- C3, refuted as stated: with the absolute text `/abs` in the project field the form
passes validation, and the path handed to `savePatch` is `/abs/MyLead.fxp`: it is not
the root `/patches` followed by the project and `MyLead.fxp`, and it does not lie under
the root at all. -/
theorem doSave_path_under_root_counterexample :
    formAbs.name ≠ sampleEnv.INIT_PATCH_NAME ∧
    (∀ c ∈ sampleEnv.availableCategories, compareIgnoreCase c formAbs.project ≠ 0) ∧
    formAbs.project = "/abs" ∧
    sampleEnv.userPatchFolder = ⟨"/patches"⟩ ∧
    (doSave sampleEnv formAbs).savePatchCalls = [⟨"/abs/MyLead.fxp"⟩] ∧
    (doSave sampleEnv formAbs).savePatchCalls ≠
      [⟨sampleEnv.userPatchFolder.fullPath ++ "/" ++ formAbs.project ++ "/" ++
        formAbs.name ++ ".fxp"⟩] ∧
    sampleEnv.userPatchFolder.fullPath.data.isPrefixOf "/abs/MyLead.fxp".data = false := by
  decide

/-- C3, amended: for a form that passes validation, the single path handed to
`savePatch` is `getChildFile` applied to the root and the project when the project
field is non-empty (the category is not looked at), else to the root and the category
text when the selected id is not 1000, else the root itself, and then applied to
`<name>.fxp`. When `getChildFile` appends plain names and the texts involved are plain
names, this is the string root, separator, project (or category text), separator,
`<name>.fxp`, respectively root, separator, `<name>.fxp`. With root `/patches`, name
"MyLead" and category "Lead" it is `/patches/Lead/MyLead.fxp` for an empty project and
`/patches/MyProj/MyLead.fxp` for the project "MyProj". -/
theorem doSave_resolved_path (env : Env) (s : State)
    (hname : s.name ≠ env.INIT_PATCH_NAME)
    (hproj : ∀ c ∈ env.availableCategories, compareIgnoreCase c s.project ≠ 0) :
    (s.project ≠ "" →
      (doSave env s).savePatchCalls = s.savePatchCalls ++
        [env.getChildFile (env.getChildFile env.userPatchFolder s.project)
          (s.name ++ ".fxp")]) ∧
    (s.project = "" → s.category.getSelectedId ≠ 1000 →
      (doSave env s).savePatchCalls = s.savePatchCalls ++
        [env.getChildFile (env.getChildFile env.userPatchFolder s.category.getText)
          (s.name ++ ".fxp")]) ∧
    (s.project = "" → s.category.getSelectedId = 1000 →
      (doSave env s).savePatchCalls = s.savePatchCalls ++
        [env.getChildFile env.userPatchFolder (s.name ++ ".fxp")]) ∧
    (resolvesPlainNames env → isPlainName (s.name ++ ".fxp") = true →
      isPlainName s.project = true →
      (doSave env s).savePatchCalls = s.savePatchCalls ++
        [⟨addTrailingSeparator env.userPatchFolder.fullPath ++ s.project ++ "/" ++
          (s.name ++ ".fxp")⟩]) ∧
    (resolvesPlainNames env → isPlainName (s.name ++ ".fxp") = true →
      s.project = "" → s.category.getSelectedId ≠ 1000 →
      isPlainName s.category.getText = true →
      (doSave env s).savePatchCalls = s.savePatchCalls ++
        [⟨addTrailingSeparator env.userPatchFolder.fullPath ++ s.category.getText ++ "/" ++
          (s.name ++ ".fxp")⟩]) ∧
    (resolvesPlainNames env → isPlainName (s.name ++ ".fxp") = true →
      s.project = "" → s.category.getSelectedId = 1000 →
      (doSave env s).savePatchCalls = s.savePatchCalls ++
        [⟨addTrailingSeparator env.userPatchFolder.fullPath ++ (s.name ++ ".fxp")⟩]) ∧
    (resolvesPlainNames env → env.userPatchFolder = ⟨"/patches"⟩ → s.name = "MyLead" →
      s.project = "" → s.category.getSelectedId ≠ 1000 → s.category.getText = "Lead" →
      (doSave env s).savePatchCalls = s.savePatchCalls ++ [⟨"/patches/Lead/MyLead.fxp"⟩]) ∧
    (resolvesPlainNames env → env.userPatchFolder = ⟨"/patches"⟩ → s.name = "MyLead" →
      s.project = "MyProj" →
      (doSave env s).savePatchCalls = s.savePatchCalls ++
        [⟨"/patches/MyProj/MyLead.fxp"⟩]) := by
  have hcalls := congrArg State.savePatchCalls
    (doSave_of_valid env s hname ((projectConflicts_eq_false_iff _ _).2 hproj))
  have h1 : s.project ≠ "" →
      (doSave env s).savePatchCalls = s.savePatchCalls ++
        [env.getChildFile (env.getChildFile env.userPatchFolder s.project)
          (s.name ++ ".fxp")] := by
    intro hp
    rw [hcalls]
    simp [saveFolder, (isNotEmpty_eq_true_iff s.project).2 hp]
  have h2 : s.project = "" → s.category.getSelectedId ≠ 1000 →
      (doSave env s).savePatchCalls = s.savePatchCalls ++
        [env.getChildFile (env.getChildFile env.userPatchFolder s.category.getText)
          (s.name ++ ".fxp")] := by
    intro hp hc
    have hc1 : s.category.getSelectedId ≠ noCatID := hc
    rw [hcalls]
    simp [saveFolder, hp, isNotEmpty_empty, hc1]
  have h3 : s.project = "" → s.category.getSelectedId = 1000 →
      (doSave env s).savePatchCalls = s.savePatchCalls ++
        [env.getChildFile env.userPatchFolder (s.name ++ ".fxp")] := by
    intro hp hc
    have hc1 : s.category.getSelectedId = noCatID := hc
    rw [hcalls]
    simp [saveFolder, hp, isNotEmpty_empty, hc1]
  have two : ∀ seg : String, resolvesPlainNames env → isPlainName (s.name ++ ".fxp") = true →
      isPlainName seg = true →
      env.getChildFile (env.getChildFile env.userPatchFolder seg) (s.name ++ ".fxp") =
        ⟨addTrailingSeparator env.userPatchFolder.fullPath ++ seg ++ "/" ++
          (s.name ++ ".fxp")⟩ := by
    intro seg hres hn hseg
    rw [hres _ seg hseg, hres _ _ hn]
    show File.mk (addTrailingSeparator
      (addTrailingSeparator env.userPatchFolder.fullPath ++ seg) ++ (s.name ++ ".fxp")) = _
    rw [addTrailingSeparator_append_plain _ seg hseg]
  have h4 : resolvesPlainNames env → isPlainName (s.name ++ ".fxp") = true →
      isPlainName s.project = true →
      (doSave env s).savePatchCalls = s.savePatchCalls ++
        [⟨addTrailingSeparator env.userPatchFolder.fullPath ++ s.project ++ "/" ++
          (s.name ++ ".fxp")⟩] := by
    intro hres hn hp
    rw [h1 (isPlainName_ne_empty _ hp), two _ hres hn hp]
  have h5 : resolvesPlainNames env → isPlainName (s.name ++ ".fxp") = true →
      s.project = "" → s.category.getSelectedId ≠ 1000 →
      isPlainName s.category.getText = true →
      (doSave env s).savePatchCalls = s.savePatchCalls ++
        [⟨addTrailingSeparator env.userPatchFolder.fullPath ++ s.category.getText ++ "/" ++
          (s.name ++ ".fxp")⟩] := by
    intro hres hn hp hc ht
    rw [h2 hp hc, two _ hres hn ht]
  refine ⟨h1, h2, h3, h4, h5, ?_, ?_, ?_⟩
  · intro hres hn hp hc
    rw [h3 hp hc, hres _ _ hn]
  · intro hres hr hn hp hc ht
    have hplainN : isPlainName (s.name ++ ".fxp") = true := by rw [hn]; decide
    have hplainC : isPlainName s.category.getText = true := by rw [ht]; decide
    rw [h5 hres hplainN hp hc hplainC, hr, hn, ht]
    have e : addTrailingSeparator "/patches" ++ "Lead" ++ "/" ++ ("MyLead" ++ ".fxp") =
        "/patches/Lead/MyLead.fxp" := by decide
    rw [e]
  · intro hres hr hn hp
    have hplainN : isPlainName (s.name ++ ".fxp") = true := by rw [hn]; decide
    have hplainP : isPlainName s.project = true := by rw [hp]; decide
    rw [h4 hres hplainN hplainP, hr, hn, hp]
    have e : addTrailingSeparator "/patches" ++ "MyProj" ++ "/" ++ ("MyLead" ++ ".fxp") =
        "/patches/MyProj/MyLead.fxp" := by decide
    rw [e]

theorem doSave_resolved_path_witness :
    (doSave sampleEnv formA).savePatchCalls = [⟨"/patches/Lead/MyLead.fxp"⟩] ∧
    (doSave sampleEnv formB).savePatchCalls = [⟨"/patches/MyProj/MyLead.fxp"⟩] ∧
    (doSave sampleEnv { formA with category := formA.category.setSelectedId 1000 }).savePatchCalls
      = [⟨"/patches/MyLead.fxp"⟩] :=
  ⟨(doSave_resolved_path sampleEnv formA (by decide) (by decide)).2.2.2.2.2.2.1
      sampleEnv_resolvesPlainNames rfl rfl rfl (by decide) (by decide),
    (doSave_resolved_path sampleEnv formB (by decide) (by decide)).2.2.2.2.2.2.2
      sampleEnv_resolvesPlainNames rfl rfl rfl,
    (doSave_resolved_path sampleEnv { formA with category := formA.category.setSelectedId 1000 }
      (by decide) (by decide)).2.2.2.2.2.1 sampleEnv_resolvesPlainNames (by decide) rfl
      (by decide)⟩

/-- C4: the reserved-name test is an exact comparison and the project test ignores
letter case. Whenever the name is not character for character the reserved name and
the project equals no category up to letter case, no alert is raised and `savePatch`
receives the candidate path; and whenever `doSave` raises an alert or does not call
`savePatch`, the name is the reserved one or the project collides with a category. -/
theorem doSave_accepts_unless_rejected (env : Env) (s : State) :
    (s.name ≠ env.INIT_PATCH_NAME →
      (∀ c ∈ env.availableCategories, compareIgnoreCase c s.project ≠ 0) →
      (doSave env s).alerts = s.alerts ∧
      (doSave env s).savePatchCalls = s.savePatchCalls ++
        [env.getChildFile (saveFolder env s) (s.name ++ ".fxp")]) ∧
    ((doSave env s).alerts ≠ s.alerts ∨ (doSave env s).savePatchCalls = s.savePatchCalls →
      s.name = env.INIT_PATCH_NAME ∨
      ∃ c ∈ env.availableCategories, compareIgnoreCase c s.project = 0) := by
  have key : s.name ≠ env.INIT_PATCH_NAME →
      (∀ c ∈ env.availableCategories, compareIgnoreCase c s.project ≠ 0) →
      (doSave env s).alerts = s.alerts ∧
      (doSave env s).savePatchCalls = s.savePatchCalls ++
        [env.getChildFile (saveFolder env s) (s.name ++ ".fxp")] := by
    intro hname hproj
    rw [doSave_of_valid env s hname ((projectConflicts_eq_false_iff _ _).2 hproj)]
    exact ⟨rfl, rfl⟩
  refine ⟨key, ?_⟩
  intro hrej
  by_contra hcon
  rw [not_or] at hcon
  have hproj : ∀ c ∈ env.availableCategories, compareIgnoreCase c s.project ≠ 0 := by
    intro c hc h0
    exact hcon.2 ⟨c, hc, h0⟩
  obtain ⟨ha, hs⟩ := key hcon.1 hproj
  rcases hrej with h | h
  · exact h ha
  · rw [hs] at h
    simp at h

theorem doSave_accepts_unless_rejected_witness :
    compareIgnoreCase "INIT" sampleEnv.INIT_PATCH_NAME = 0 ∧
    (doSave sampleEnv { formA with name := "INIT" }).alerts = [] ∧
    (doSave sampleEnv { formA with name := "INIT" }).savePatchCalls =
      [⟨"/patches/Lead/INIT.fxp"⟩] ∧
    (doSave sampleEnv { formA with name := "" }).savePatchCalls = [⟨"/patches/Lead/.fxp"⟩] :=
  ⟨by decide,
    ((doSave_accepts_unless_rejected sampleEnv { formA with name := "INIT" }).1
      (by decide) (by decide)).1,
    ((doSave_accepts_unless_rejected sampleEnv { formA with name := "INIT" }).1
      (by decide) (by decide)).2,
    ((doSave_accepts_unless_rejected sampleEnv { formA with name := "" }).1
      (by decide) (by decide)).2⟩

/-- C5: for a form that passes validation and for every result of the external write,
after `doSave` the active patch carries the name, author, license and project of the
form, its category is empty when id 1000 is selected and the displayed category text
otherwise, the remembered author and license are those of the form, the session has
been notified once with the new name, and the dialog is hidden. -/
theorem doSave_commits_form (env : Env) (s : State) (sp : File → Bool)
    (hname : s.name ≠ env.INIT_PATCH_NAME)
    (hproj : ∀ c ∈ env.availableCategories, compareIgnoreCase c s.project ≠ 0) :
    (doSave { env with savePatch := sp } s).activeProgram.name = s.name ∧
    (doSave { env with savePatch := sp } s).activeProgram.author = s.author ∧
    (doSave { env with savePatch := sp } s).activeProgram.license = s.license ∧
    (doSave { env with savePatch := sp } s).activeProgram.project = s.project ∧
    (s.category.getSelectedId = 1000 →
      (doSave { env with savePatch := sp } s).activeProgram.category = "") ∧
    (s.category.getSelectedId ≠ 1000 →
      (doSave { env with savePatch := sp } s).activeProgram.category = s.category.getText) ∧
    (doSave { env with savePatch := sp } s).lastPatchAuthor = s.author ∧
    (doSave { env with savePatch := sp } s).lastPatchLicense = s.license ∧
    (doSave { env with savePatch := sp } s).lastLoadedResets =
      s.lastLoadedResets ++ [(s.name, true)] ∧
    (doSave { env with savePatch := sp } s).visible = false := by
  have hname1 : s.name ≠ ({ env with savePatch := sp } : Env).INIT_PATCH_NAME := hname
  have hproj1 : projectConflicts s.project
      ({ env with savePatch := sp } : Env).availableCategories = false :=
    (projectConflicts_eq_false_iff _ _).2 hproj
  rw [doSave_of_valid _ s hname1 hproj1]
  refine ⟨rfl, rfl, rfl, rfl, ?_, ?_, rfl, rfl, rfl, rfl⟩
  · intro hc
    have hc1 : s.category.getSelectedId = noCatID := hc
    simp [hc1]
  · intro hc
    have hc1 : s.category.getSelectedId ≠ noCatID := hc
    simp [hc1]

theorem doSave_commits_form_witness :
    (doSave failingEnv formB).activeProgram.name = "MyLead" ∧
    (doSave failingEnv formB).activeProgram.category = "Lead" ∧
    (doSave failingEnv formB).visible = false ∧
    (doSave sampleEnv formB).activeProgram.category = "Lead" ∧
    (doSave sampleEnv formB).lastLoadedResets = [("MyLead", true)] ∧
    (doSave failingEnv formB).log =
      ["Starting patch save", "Saving patch to /patches/MyProj/MyLead.fxp",
        "Failed to save patch"] :=
  ⟨(doSave_commits_form sampleEnv formB (fun _ => false) (by decide) (by decide)).1,
    (doSave_commits_form sampleEnv formB (fun _ => false) (by decide) (by decide)).2.2.2.2.2.1
      (by decide),
    (doSave_commits_form sampleEnv formB (fun _ => false) (by decide)
      (by decide)).2.2.2.2.2.2.2.2.2,
    (doSave_commits_form sampleEnv formB (fun _ => true) (by decide) (by decide)).2.2.2.2.2.1
      (by decide),
    (doSave_commits_form sampleEnv formB (fun _ => true) (by decide)
      (by decide)).2.2.2.2.2.2.2.2.1,
    by decide⟩

/-! ## Claims about `getPatchInfo` followed by `doSave` -/

theorem getPatchInfo_name (env : Env) (s : State) :
    (getPatchInfo env s).name = s.activeProgram.name := by
  unfold getPatchInfo
  dsimp only
  split_ifs <;> rfl

theorem getPatchInfo_project (env : Env) (s : State) :
    (getPatchInfo env s).project = s.activeProgram.project := by
  rfl

theorem getPatchInfo_author (env : Env) (s : State) :
    (getPatchInfo env s).author =
      if isNotEmpty s.activeProgram.author then s.activeProgram.author
      else s.lastPatchAuthor := by
  unfold getPatchInfo
  dsimp only
  split_ifs <;> rfl

theorem getPatchInfo_license (env : Env) (s : State) :
    (getPatchInfo env s).license =
      if isNotEmpty s.activeProgram.license then s.activeProgram.license
      else s.lastPatchLicense := by
  unfold getPatchInfo
  dsimp only
  split_ifs <;> rfl

theorem getPatchInfo_category (env : Env) (s : State) :
    (getPatchInfo env s).category =
      selectCategoryLoop s.activeProgram.category (s.category.setSelectedId noCatID)
        env.availableCategories 1 := by
  unfold getPatchInfo
  dsimp only
  split_ifs <;> rfl

theorem getPatchInfo_savePatchCalls (env : Env) (s : State) :
    (getPatchInfo env s).savePatchCalls = s.savePatchCalls := by
  unfold getPatchInfo
  dsimp only
  split_ifs <;> rfl

/-- C6: populating the form from the patch and committing without edits, for a patch
that passes validation: a non-empty author (license) of the patch is the same after the
commit; for an empty author (license) the form takes the remembered last author
(license), and the commit writes that remembered value into the patch. -/
theorem doQuickSave_author_license_roundtrip (env : Env) (s : State)
    (hname : s.activeProgram.name ≠ env.INIT_PATCH_NAME)
    (hproj : ∀ c ∈ env.availableCategories,
      compareIgnoreCase c s.activeProgram.project ≠ 0) :
    (s.activeProgram.author ≠ "" →
      (doQuickSave env s).activeProgram.author = s.activeProgram.author) ∧
    (s.activeProgram.license ≠ "" →
      (doQuickSave env s).activeProgram.license = s.activeProgram.license) ∧
    (s.activeProgram.author = "" →
      (getPatchInfo env s).author = s.lastPatchAuthor ∧
      (doQuickSave env s).activeProgram.author = s.lastPatchAuthor) ∧
    (s.activeProgram.license = "" →
      (getPatchInfo env s).license = s.lastPatchLicense ∧
      (doQuickSave env s).activeProgram.license = s.lastPatchLicense) := by
  have hname1 : (getPatchInfo env s).name ≠ env.INIT_PATCH_NAME := by
    rw [getPatchInfo_name]; exact hname
  have hproj1 : projectConflicts (getPatchInfo env s).project env.availableCategories
      = false := by
    rw [getPatchInfo_project]; exact (projectConflicts_eq_false_iff _ _).2 hproj
  have ha : (doQuickSave env s).activeProgram.author = (getPatchInfo env s).author := by
    unfold doQuickSave
    rw [doSave_of_valid env _ hname1 hproj1]
  have hl : (doQuickSave env s).activeProgram.license = (getPatchInfo env s).license := by
    unfold doQuickSave
    rw [doSave_of_valid env _ hname1 hproj1]
  rw [ha, hl, getPatchInfo_author, getPatchInfo_license]
  refine ⟨?_, ?_, ?_, ?_⟩
  · intro h
    rw [if_pos ((isNotEmpty_eq_true_iff _).2 h)]
  · intro h
    rw [if_pos ((isNotEmpty_eq_true_iff _).2 h)]
  · intro h
    rw [h]
    simp [isNotEmpty_empty]
  · intro h
    rw [h]
    simp [isNotEmpty_empty]

theorem doQuickSave_author_license_roundtrip_witness :
    sampleState.activeProgram.author = "" ∧ sampleState.lastPatchAuthor = "Ada" ∧
    (doQuickSave sampleEnv sampleState).activeProgram.author = "Ada" ∧
    (doQuickSave sampleEnv
      { sampleState with activeProgram := ⟨"MyLead", "Bob", "", "Lead", ""⟩ }).activeProgram.author
      = "Bob" :=
  ⟨rfl, rfl,
    ((doQuickSave_author_license_roundtrip sampleEnv sampleState (by decide)
      (by decide)).2.2.1 rfl).2,
    (doQuickSave_author_license_roundtrip sampleEnv
      { sampleState with activeProgram := ⟨"MyLead", "Bob", "", "Lead", ""⟩ } (by decide)
      (by decide)).1 (by decide)⟩

/-! ### The category selector after `getPatchInfo` -/

theorem setSelectedId_items (cb : ComboBox) (id : Int) :
    (cb.setSelectedId id).items = cb.items := by
  unfold ComboBox.setSelectedId
  dsimp only
  split_ifs <;> rfl

theorem setSelectedId_currentId (cb : ComboBox) (id : Int) :
    (cb.setSelectedId id).currentId = id := by
  unfold ComboBox.setSelectedId
  dsimp only
  split_ifs with h
  · rfl
  · rw [not_or, not_not, not_not] at h
    exact h.1

theorem setSelectedId_labelText (cb : ComboBox) (id : Int) :
    (cb.setSelectedId id).labelText =
      match cb.getItemForId id with
      | some it => it.text
      | none => "" := by
  unfold ComboBox.setSelectedId
  dsimp only
  split_ifs with h
  · rfl
  · rw [not_or, not_not, not_not] at h
    exact h.2

theorem addItem_items (cb : ComboBox) (text : String) (id : Int) :
    (cb.addItem text id).items =
      cb.items ++ (if isNotEmpty text = true ∧ id ≠ 0 then [⟨text, id⟩] else []) := by
  unfold ComboBox.addItem
  split_ifs <;> simp

theorem addCategories_items (cs : List String) :
    ∀ (cb : ComboBox) (idx : Int), ∃ rest,
      (addCategories cb cs idx).items = cb.items ++ rest ∧ ∀ it ∈ rest, idx ≤ it.itemID := by
  induction cs with
  | nil =>
    intro cb idx
    exact ⟨[], by simp [addCategories], by simp⟩
  | cons c cs ih =>
    intro cb idx
    obtain ⟨rest, h1, h2⟩ := ih (cb.addItem c idx) (idx + 1)
    refine ⟨(if isNotEmpty c = true ∧ idx ≠ 0 then [⟨c, idx⟩] else []) ++ rest, ?_, ?_⟩
    · unfold addCategories
      rw [h1, addItem_items, List.append_assoc]
    · intro it hit
      rw [List.mem_append] at hit
      rcases hit with hit | hit
      · split_ifs at hit
        · rw [List.mem_singleton] at hit
          rw [hit]
        · simp at hit
      · have := h2 it hit
        omega

theorem addCategories_find (cs : List String) :
    ∀ (cb : ComboBox) (idx : Int) (k : Nat) (c : String), cs[k]? = some c → 0 < idx →
      (∀ it ∈ cb.items, it.itemID ≠ idx + k) →
      (addCategories cb cs idx).items.find? (fun it => it.itemID = idx + k) =
        if isNotEmpty c = true then some ⟨c, idx + k⟩ else none := by
  induction cs with
  | nil =>
    intro cb idx k c hk
    simp at hk
  | cons c0 cs ih =>
    intro cb idx k c hk hidx hcb
    cases k with
    | zero =>
      simp only [List.getElem?_cons_zero, Option.some.injEq] at hk
      subst hk
      obtain ⟨rest, h1, h2⟩ := addCategories_items cs (cb.addItem c0 idx) (idx + 1)
      have hrest : rest.find? (fun it => decide (it.itemID = idx + ((0 : Nat) : Int))) = none := by
        rw [List.find?_eq_none]
        intro it hit
        have := h2 it hit
        simp only [decide_eq_true_eq]
        omega
      have hcb1 : cb.items.find? (fun it => decide (it.itemID = idx + ((0 : Nat) : Int))) = none := by
        rw [List.find?_eq_none]
        intro it hit
        simp only [decide_eq_true_eq]
        exact hcb it hit
      unfold addCategories
      rw [h1, addItem_items, List.find?_append, List.find?_append, hcb1, hrest]
      have hidx0 : idx ≠ 0 := by omega
      by_cases hne : isNotEmpty c0 = true
      · simp [hne, hidx0]
      · simp [hne]
    | succ k =>
      simp only [List.getElem?_cons_succ] at hk
      have hcast : idx + ((k + 1 : Nat) : Int) = (idx + 1) + (k : Int) := by push_cast; ring
      rw [hcast]
      unfold addCategories
      apply ih (cb.addItem c0 idx) (idx + 1) k c hk (by omega)
      intro it hit
      rw [addItem_items, List.mem_append] at hit
      rcases hit with hit | hit
      · have := hcb it hit
        rw [hcast] at this
        exact this
      · split_ifs at hit
        · rw [List.mem_singleton] at hit
          rw [hit]
          show idx ≠ idx + 1 + (k : Int)
          omega
        · simp at hit

theorem selectCategoryLoop_spec (prCategory : String) (cb : ComboBox) (cs : List String) :
    ∀ idx : Int,
      (prCategory ∉ cs → selectCategoryLoop prCategory cb cs idx = cb) ∧
      (prCategory ∈ cs → ∃ k : Nat, cs[k]? = some prCategory ∧
        selectCategoryLoop prCategory cb cs idx = cb.setSelectedId (idx + k)) := by
  induction cs with
  | nil =>
    intro idx
    simp [selectCategoryLoop]
  | cons c cs ih =>
    intro idx
    obtain ⟨ih1, ih2⟩ := ih (idx + 1)
    unfold selectCategoryLoop
    by_cases hc : prCategory = c
    · refine ⟨fun h => absurd (hc ▸ List.mem_cons_self _ _) h, fun _ => ⟨0, ?_, ?_⟩⟩
      · simp [hc]
      · simp [hc]
    · refine ⟨fun h => ?_, fun h => ?_⟩
      · rw [if_neg hc]
        exact ih1 (fun hm => h (List.mem_cons_of_mem _ hm))
      · rw [if_neg hc]
        rcases List.mem_cons.1 h with h | h
        · exact absurd h hc
        · obtain ⟨k, hk1, hk2⟩ := ih2 h
          refine ⟨k + 1, by simpa using hk1, ?_⟩
          rw [hk2]
          congr 1
          push_cast
          ring

theorem constructCategory_items (env : Env) :
    ∃ rest, (constructCategory env).items = (⟨"None", noCatID⟩ : ComboItem) :: rest := by
  unfold constructCategory
  obtain ⟨rest, h1, _⟩ := addCategories_items env.availableCategories
    ((⟨[], 0, ""⟩ : ComboBox).addItem "None" noCatID) 1
  refine ⟨rest, ?_⟩
  rw [h1]
  rfl

theorem getItemForId_noCatID (env : Env) (cb : ComboBox)
    (hitems : cb.items = (constructCategory env).items) :
    cb.getItemForId noCatID = some ⟨"None", noCatID⟩ := by
  obtain ⟨rest, h⟩ := constructCategory_items env
  unfold ComboBox.getItemForId
  rw [hitems, h]
  simp [noCatID]

theorem getItemForId_category (env : Env) (cb : ComboBox)
    (hitems : cb.items = (constructCategory env).items)
    (hlen : env.availableCategories.length < 1000) (k : Nat) (c : String)
    (hk : env.availableCategories[k]? = some c) :
    cb.getItemForId (1 + k) = if isNotEmpty c = true then some ⟨c, 1 + k⟩ else none := by
  have hklt : k < env.availableCategories.length := by
    by_contra hge
    rw [List.getElem?_eq_none (by omega)] at hk
    simp at hk
  unfold ComboBox.getItemForId
  rw [if_pos (by omega), hitems]
  unfold constructCategory
  apply addCategories_find env.availableCategories _ 1 k c hk (by decide)
  intro it hit
  have hit1 : it = ⟨"None", noCatID⟩ := by
    have : ((⟨[], 0, ""⟩ : ComboBox).addItem "None" noCatID).items = [⟨"None", noCatID⟩] := rfl
    rw [this, List.mem_singleton] at hit
    exact hit
  rw [hit1]
  show (1000 : Int) ≠ 1 + (k : Int)
  omega

/-- The selector after `getPatchInfo`: the sentinel is selected when the stored
category is not in the list; otherwise a non-sentinel id is selected and the label
shows the stored category. -/
theorem getPatchInfo_category_spec (env : Env) (s : State)
    (hitems : s.category.items = (constructCategory env).items)
    (hlen : env.availableCategories.length < 1000) :
    (s.activeProgram.category ∉ env.availableCategories →
      (getPatchInfo env s).category.getSelectedId = noCatID) ∧
    (s.activeProgram.category ∈ env.availableCategories →
      (getPatchInfo env s).category.getSelectedId ≠ noCatID ∧
      (getPatchInfo env s).category.getText = s.activeProgram.category) := by
  rw [getPatchInfo_category]
  have hitemsN : (s.category.setSelectedId noCatID).items = (constructCategory env).items := by
    rw [setSelectedId_items]; exact hitems
  obtain ⟨h1, h2⟩ := selectCategoryLoop_spec s.activeProgram.category
    (s.category.setSelectedId noCatID) env.availableCategories 1
  refine ⟨fun hnot => ?_, fun hmem => ?_⟩
  · rw [h1 hnot]
    unfold ComboBox.getSelectedId ComboBox.getText
    rw [setSelectedId_currentId, getItemForId_noCatID env _ hitemsN, setSelectedId_labelText,
      getItemForId_noCatID env _ hitems]
    simp
  · obtain ⟨k, hk, hsel⟩ := h2 hmem
    have hklt : k < env.availableCategories.length := by
      by_contra hge
      rw [List.getElem?_eq_none (by omega)] at hk
      simp at hk
    have hitemsK : ((s.category.setSelectedId noCatID).setSelectedId (1 + k)).items =
        (constructCategory env).items := by
      rw [setSelectedId_items]; exact hitemsN
    rw [hsel]
    unfold ComboBox.getSelectedId ComboBox.getText
    rw [setSelectedId_currentId, getItemForId_category env _ hitemsK hlen k _ hk,
      setSelectedId_labelText, getItemForId_category env _ hitemsN hlen k _ hk]
    by_cases hne : isNotEmpty s.activeProgram.category = true
    · simp only [hne, if_true]
      refine ⟨?_, trivial⟩
      show (1 : Int) + k ≠ 1000
      omega
    · have hne1 : isNotEmpty s.activeProgram.category = false := by simpa using hne
      have hempty : s.activeProgram.category = "" := by
        by_contra h
        exact hne ((isNotEmpty_eq_true_iff _).2 h)
      rw [hne1]
      refine ⟨by simp [noCatID], ?_⟩
      simp only [Bool.false_eq_true, if_false]
      exact hempty.symm

theorem construct_category_items (env : Env) (pr : Program) (a l : String) :
    (construct env pr a l).category.items = (constructCategory env).items := rfl

theorem selectCategoryLoop_items (prCategory : String) (cb : ComboBox) (cs : List String) :
    ∀ idx : Int, (selectCategoryLoop prCategory cb cs idx).items = cb.items := by
  induction cs with
  | nil => intro idx; rfl
  | cons c cs ih =>
    intro idx
    unfold selectCategoryLoop
    split_ifs
    · exact setSelectedId_items cb idx
    · exact ih (idx + 1)

/-- The entries of the selector are those the constructor added: neither populating
the form nor saving changes them. -/
theorem category_items_preserved (env : Env) (s : State) :
    (getPatchInfo env s).category.items = s.category.items ∧
    (doSave env s).category = s.category := by
  constructor
  · rw [getPatchInfo_category, selectCategoryLoop_items, setSelectedId_items]
  · by_cases hname : s.name = env.INIT_PATCH_NAME
    · rw [doSave_of_reserved env s hname]
    · cases hproj : projectConflicts s.project env.availableCategories
      · rw [doSave_of_valid env s hname hproj]
      · rw [doSave_of_conflict env s hname hproj]

/-- C10, refuted as stated: for the patch named `/x`, with no project and a category
that is not in the list, `doQuickSave` passes validation and hands `savePatch` the path
`/x.fxp`, which does not lie in the root directory `/patches`. -/
theorem doQuickSave_into_root_counterexample :
    slashNameState.category.items = (constructCategory sampleEnv).items ∧
    sampleEnv.availableCategories.length < 1000 ∧
    slashNameState.activeProgram.name ≠ sampleEnv.INIT_PATCH_NAME ∧
    (∀ c ∈ sampleEnv.availableCategories,
      compareIgnoreCase c slashNameState.activeProgram.project ≠ 0) ∧
    slashNameState.activeProgram.category ∉ sampleEnv.availableCategories ∧
    slashNameState.activeProgram.project = "" ∧
    sampleEnv.userPatchFolder = ⟨"/patches"⟩ ∧
    (doQuickSave sampleEnv slashNameState).savePatchCalls = [⟨"/x.fxp"⟩] ∧
    sampleEnv.userPatchFolder.fullPath.data.isPrefixOf "/x.fxp".data = false := by
  decide

/-- C10, amended: for a selector filled by the constructor from fewer than 1000
categories and a patch that passes validation, `doQuickSave` keeps the name and the
project of the patch, and keeps its category exactly when that category is empty or is
an entry of the category list (exact comparison). When the stored category is not an
entry, `getPatchInfo` selects the sentinel id 1000, the save writes the empty category
into the patch, and the path handed to `savePatch` has no category part: it is
`getChildFile` applied to the root (to the root and the project when the project is
non-empty) and then to `<name>.fxp`. When `getChildFile` appends plain names and the
texts involved are plain names, that is root, separator, `<name>.fxp`, respectively
root, separator, project, separator, `<name>.fxp`. -/
theorem doQuickSave_category_roundtrip (env : Env) (s : State)
    (hitems : s.category.items = (constructCategory env).items)
    (hlen : env.availableCategories.length < 1000)
    (hname : s.activeProgram.name ≠ env.INIT_PATCH_NAME)
    (hproj : ∀ c ∈ env.availableCategories,
      compareIgnoreCase c s.activeProgram.project ≠ 0) :
    (doQuickSave env s).activeProgram.name = s.activeProgram.name ∧
    (doQuickSave env s).activeProgram.project = s.activeProgram.project ∧
    ((doQuickSave env s).activeProgram.category = s.activeProgram.category ↔
      s.activeProgram.category = "" ∨
        s.activeProgram.category ∈ env.availableCategories) ∧
    (s.activeProgram.category ∉ env.availableCategories →
      (getPatchInfo env s).category.getSelectedId = 1000 ∧
      (doQuickSave env s).activeProgram.category = "" ∧
      (s.activeProgram.project = "" →
        (doQuickSave env s).savePatchCalls = s.savePatchCalls ++
          [env.getChildFile env.userPatchFolder (s.activeProgram.name ++ ".fxp")]) ∧
      (s.activeProgram.project ≠ "" →
        (doQuickSave env s).savePatchCalls = s.savePatchCalls ++
          [env.getChildFile (env.getChildFile env.userPatchFolder s.activeProgram.project)
            (s.activeProgram.name ++ ".fxp")]) ∧
      (resolvesPlainNames env → isPlainName (s.activeProgram.name ++ ".fxp") = true →
        s.activeProgram.project = "" →
        (doQuickSave env s).savePatchCalls = s.savePatchCalls ++
          [⟨addTrailingSeparator env.userPatchFolder.fullPath ++
            (s.activeProgram.name ++ ".fxp")⟩]) ∧
      (resolvesPlainNames env → isPlainName (s.activeProgram.name ++ ".fxp") = true →
        isPlainName s.activeProgram.project = true →
        (doQuickSave env s).savePatchCalls = s.savePatchCalls ++
          [⟨addTrailingSeparator env.userPatchFolder.fullPath ++ s.activeProgram.project ++
            "/" ++ (s.activeProgram.name ++ ".fxp")⟩])) := by
  have hname1 : (getPatchInfo env s).name ≠ env.INIT_PATCH_NAME := by
    rw [getPatchInfo_name]; exact hname
  have hproj1 : projectConflicts (getPatchInfo env s).project env.availableCategories
      = false := by
    rw [getPatchInfo_project]; exact (projectConflicts_eq_false_iff _ _).2 hproj
  obtain ⟨hsel1, hsel2⟩ := getPatchInfo_category_spec env s hitems hlen
  have hn : (doQuickSave env s).activeProgram.name = s.activeProgram.name := by
    unfold doQuickSave
    rw [doSave_of_valid env _ hname1 hproj1]
    exact getPatchInfo_name env s
  have hp : (doQuickSave env s).activeProgram.project = s.activeProgram.project := by
    unfold doQuickSave
    rw [doSave_of_valid env _ hname1 hproj1]
    exact getPatchInfo_project env s
  have hc : (doQuickSave env s).activeProgram.category =
      if (getPatchInfo env s).category.getSelectedId = noCatID then ""
      else (getPatchInfo env s).category.getText := by
    unfold doQuickSave
    rw [doSave_of_valid env _ hname1 hproj1]
  have hs : (doQuickSave env s).savePatchCalls = s.savePatchCalls ++
      [env.getChildFile (saveFolder env (getPatchInfo env s))
        (s.activeProgram.name ++ ".fxp")] := by
    unfold doQuickSave
    rw [doSave_of_valid env _ hname1 hproj1]
    show (getPatchInfo env s).savePatchCalls ++ _ = _
    rw [getPatchInfo_savePatchCalls, getPatchInfo_name]
  refine ⟨hn, hp, ?_, ?_⟩
  · by_cases hmem : s.activeProgram.category ∈ env.availableCategories
    · rw [hc, if_neg (hsel2 hmem).1, (hsel2 hmem).2]
      exact ⟨fun _ => Or.inr hmem, fun _ => rfl⟩
    · rw [hc, if_pos (hsel1 hmem)]
      constructor
      · intro h
        exact Or.inl h.symm
      · intro h
        rcases h with h | h
        · exact h.symm
        · exact absurd h hmem
  · intro hmem
    have r1 : s.activeProgram.project = "" →
        (doQuickSave env s).savePatchCalls = s.savePatchCalls ++
          [env.getChildFile env.userPatchFolder (s.activeProgram.name ++ ".fxp")] := by
      intro hpe
      rw [hs]
      unfold saveFolder
      rw [getPatchInfo_project, hpe]
      simp [isNotEmpty_empty, hsel1 hmem]
    have r2 : s.activeProgram.project ≠ "" →
        (doQuickSave env s).savePatchCalls = s.savePatchCalls ++
          [env.getChildFile (env.getChildFile env.userPatchFolder s.activeProgram.project)
            (s.activeProgram.name ++ ".fxp")] := by
      intro hpe
      rw [hs]
      unfold saveFolder
      rw [getPatchInfo_project]
      simp [(isNotEmpty_eq_true_iff _).2 hpe]
    refine ⟨hsel1 hmem, ?_, r1, r2, ?_, ?_⟩
    · rw [hc, if_pos (hsel1 hmem)]
    · intro hres hplain hpe
      rw [r1 hpe, hres _ _ hplain]
    · intro hres hplain hpp
      rw [r2 (isPlainName_ne_empty _ hpp), hres _ _ hpp, hres _ _ hplain]
      show s.savePatchCalls ++ [File.mk (addTrailingSeparator
        (addTrailingSeparator env.userPatchFolder.fullPath ++ s.activeProgram.project) ++
          (s.activeProgram.name ++ ".fxp"))] = _
      rw [addTrailingSeparator_append_plain _ _ hpp]

theorem doQuickSave_category_roundtrip_witness :
    (doQuickSave sampleEnv sampleState).activeProgram.category = "Lead" ∧
    (doQuickSave sampleEnv
      { sampleState with activeProgram := ⟨"MyLead", "", "", "lead", ""⟩ }).activeProgram.category
      = "" ∧
    (doQuickSave sampleEnv
      { sampleState with activeProgram := ⟨"MyLead", "", "", "lead", ""⟩ }).savePatchCalls
      = [⟨"/patches/MyLead.fxp"⟩] :=
  ⟨((doQuickSave_category_roundtrip sampleEnv sampleState (by decide) (by decide) (by decide)
      (by decide)).2.2.1).2 (Or.inr (by decide)),
    ((doQuickSave_category_roundtrip sampleEnv
      { sampleState with activeProgram := ⟨"MyLead", "", "", "lead", ""⟩ } (by decide)
      (by decide) (by decide) (by decide)).2.2.2 (by decide)).2.1,
    ((doQuickSave_category_roundtrip sampleEnv
      { sampleState with activeProgram := ⟨"MyLead", "", "", "lead", ""⟩ } (by decide)
      (by decide) (by decide) (by decide)).2.2.2 (by decide)).2.2.2.2.1
      sampleEnv_resolvesPlainNames (by decide) rfl⟩

/-! ## Claims about layout and painting -/

theorem mapFind_of_mem (m : List (String × Rectangle)) (key : String) (r : Rectangle)
    (hnodup : (m.map Prod.fst).Nodup) (hmem : (key, r) ∈ m) :
    mapFind m key = some (key, r) := by
  induction m with
  | nil => simp at hmem
  | cons p m ih =>
    rw [List.map_cons, List.nodup_cons] at hnodup
    unfold mapFind
    rcases List.mem_cons.1 hmem with h | h
    · subst h
      simp
    · have hne : p.1 ≠ key := by
        intro hp
        apply hnodup.1
        rw [hp]
        exact List.mem_map_of_mem Prod.fst h
      rw [List.find?_cons_of_neg _ (by simpa using hne)]
      exact ih hnodup.2 h

theorem mapFind_of_not_mem (m : List (String × Rectangle)) (key : String)
    (hnot : key ∉ m.map Prod.fst) : mapFind m key = none := by
  unfold mapFind
  rw [List.find?_eq_none]
  intro p hp
  simp only [decide_eq_true_eq]
  intro hk
  apply hnot
  rw [← hk]
  exact List.mem_map_of_mem Prod.fst hp

/-- C7: the bounds lookup of `resized` returns the rectangle stored under the key,
unscaled, when the key is in the skin bounds map (a map with unique keys), and the
default rectangle otherwise; after `resetState` the map is empty and the seven
controls resolve to their default rectangles; `resized` scales exactly these lookups
and leaves the map as it was. -/
theorem lookup_resolves (env : Env) (s : State) (key : String) (dx dy dw dh : Int) :
    (∀ r, (s.boundsMap.map Prod.fst).Nodup → (key, r) ∈ s.boundsMap →
      lookup s key dx dy dw dh = r) ∧
    (key ∉ s.boundsMap.map Prod.fst → lookup s key dx dy dw dh = ⟨dx, dy, dw, dh⟩) ∧
    (resetState env s).boundsMap = [] ∧
    resolveBounds (resetState env s) =
      { nameBounds := ⟨22, 29, 200, 31⟩
        authorBounds := ⟨22, 90, 200, 31⟩
        projectBounds := ⟨22, 151, 200, 31⟩
        catBounds := ⟨25, 212, 90, 31⟩
        licBounds := ⟨126, 212, 96, 31⟩
        cancelBounds := ⟨129, 272, 23, 35⟩
        okBounds := ⟨92, 272, 23, 35⟩ } ∧
    (resized env s).nameBounds =
      setBounds (toR env (getContentArea env s)
        (lookup s "savePatchNameLabel" 22 29 200 31)) ∧
    (resized env s).okBounds =
      setBounds (toR env (getContentArea env s)
        (lookup s "savePatchOKButton" 92 272 23 35)) ∧
    (resized env s).boundsMap = s.boundsMap := by
  have hreset : (resetState env s).boundsMap = [] := by
    unfold resetState
    dsimp only
  refine ⟨?_, ?_, hreset, ?_, rfl, rfl, rfl⟩
  · intro r hnodup hmem
    unfold lookup
    rw [mapFind_of_mem _ _ _ hnodup hmem]
  · intro hnot
    unfold lookup
    rw [mapFind_of_not_mem _ _ hnot]
  · unfold resolveBounds lookup
    rw [hreset]
    rfl

theorem lookup_resolves_witness :
    lookup skinnedState "savePatchOKButton" 92 272 23 35 = ⟨10, 20, 30, 40⟩ ∧
    lookup skinnedState "savePatchCancelButton" 129 272 23 35 = ⟨129, 272, 23, 35⟩ ∧
    (resized sampleEnv skinnedState).okBounds = ⟨260, 120, 30, 40⟩ :=
  ⟨(lookup_resolves sampleEnv skinnedState "savePatchOKButton" 92 272 23 35).1 _
      (by decide) (by decide),
    (lookup_resolves sampleEnv skinnedState "savePatchCancelButton" 129 272 23 35).2.1
      (by decide),
    by decide⟩

/-- C9: `paint` first darkens the whole parent and then draws exactly one background,
chosen by the flag `hasSkinImage` (which `resetState` sets to whether the skin declares
the asset), whether that asset is a vector, and whether the embedded vector exists:
the skin raster image, else the skin vector, else the embedded vector, else the flat
rectangle with its border. -/
theorem paint_selects_background (env : Env) (s : State) :
    (resetState env s).hasSkinImage = env.hasImageFor bgKey ∧
    (resetState env s).saveDialogSVG = s.saveDialogSVG ∧
    (s.hasSkinImage = true → env.isSVG bgKey = false →
      paint env s = [DrawOp.fillAll,
        DrawOp.drawSkinImage (getContentArea env s).getWidth (getContentArea env s).getHeight
          (getContentArea env s)]) ∧
    (s.hasSkinImage = true → env.isSVG bgKey = true →
      paint env s = [DrawOp.fillAll,
        DrawOp.drawSkinVector env.impliedScaleFactor (getContentArea env s).getX
          (getContentArea env s).getY]) ∧
    (s.hasSkinImage = false → ∀ d, s.saveDialogSVG = some d →
      paint env s = [DrawOp.fillAll,
        DrawOp.drawEmbeddedVector d env.impliedScaleFactor (getContentArea env s).getX
          (getContentArea env s).getY]) ∧
    (s.hasSkinImage = false → s.saveDialogSVG = none →
      paint env s = [DrawOp.fillAll, DrawOp.setColour 0xAA 0xAA 0xAA,
        DrawOp.fillRect (getContentArea env s), DrawOp.setColour 0xFF 0xFF 0xFF,
        DrawOp.drawRect (getContentArea env s) 3]) := by
  refine ⟨?_, ?_, ?_, ?_, ?_, ?_⟩
  · unfold resetState
    cases h : env.hasImageFor bgKey <;> simp
  · unfold resetState
    cases h : env.hasImageFor bgKey <;> simp
  · intro h1 h2
    simp [paint, h1, h2]
  · intro h1 h2
    simp [paint, h1, h2]
  · intro h1 d h2
    simp [paint, h1, h2]
  · intro h1 h2
    simp [paint, h1, h2]

theorem paint_selects_background_witness :
    paint sampleEnv shownState =
      [DrawOp.fillAll, DrawOp.setColour 0xAA 0xAA 0xAA, DrawOp.fillRect ⟨277, 136, 246, 328⟩,
        DrawOp.setColour 0xFF 0xFF 0xFF, DrawOp.drawRect ⟨277, 136, 246, 328⟩ 3] ∧
    paint sampleEnv { shownState with saveDialogSVG := some ⟨246, 328⟩ } =
      [DrawOp.fillAll, DrawOp.drawEmbeddedVector ⟨246, 328⟩ ⟨1, 1⟩ 277 136] ∧
    paint sampleEnv { shownState with hasSkinImage := true } =
      [DrawOp.fillAll, DrawOp.drawSkinImage 246 328 ⟨277, 136, 246, 328⟩] :=
  ⟨(paint_selects_background sampleEnv shownState).2.2.2.2.2 rfl rfl,
    (paint_selects_background sampleEnv
      { shownState with saveDialogSVG := some ⟨246, 328⟩ }).2.2.2.2.1 rfl _ rfl,
    (paint_selects_background sampleEnv { shownState with hasSkinImage := true }).2.2.1 rfl rfl⟩

/-- Halving an `int` value (C++ division) stays within a quarter of the `int` range. -/
theorem tdiv_two_range (a : Int) (h1 : -2 ^ 31 ≤ a) (h2 : a < 2 ^ 31) :
    -2 ^ 30 ≤ a.tdiv 2 ∧ a.tdiv 2 < 2 ^ 30 := by
  rcases le_total 0 a with ha | ha
  · rw [Int.tdiv_eq_ediv ha (by decide)]
    omega
  · have e : a.tdiv 2 = -((-a).tdiv 2) := by rw [Int.neg_tdiv, neg_neg]
    rw [e, Int.tdiv_eq_ediv (by omega) (by decide)]
    omega

/-- The integer arithmetic of `getContentArea` does not leave the range of `int`: for a
parent size and converted dialog size that are `int` values, so are the coordinates of
the content area. -/
theorem getContentArea_in_int_range (env : Env) (s : State)
    (hw0 : 0 ≤ s.width) (hw1 : s.width < 2 ^ 31) (hh0 : 0 ≤ s.height) (hh1 : s.height < 2 ^ 31)
    (hdw0 : -2 ^ 31 ≤ env.mulToInt (dialogSize s).1)
    (hdw1 : env.mulToInt (dialogSize s).1 < 2 ^ 31)
    (hdh0 : -2 ^ 31 ≤ env.mulToInt (dialogSize s).2)
    (hdh1 : env.mulToInt (dialogSize s).2 < 2 ^ 31) :
    -2 ^ 31 ≤ (getContentArea env s).getX ∧ (getContentArea env s).getX < 2 ^ 31 ∧
    -2 ^ 31 ≤ (getContentArea env s).getY ∧ (getContentArea env s).getY < 2 ^ 31 := by
  have a1 := tdiv_two_range s.width (by omega) hw1
  have a2 := tdiv_two_range s.height (by omega) hh1
  have a3 := tdiv_two_range _ hdw0 hdw1
  have a4 := tdiv_two_range _ hdh0 hdh1
  have a5 : 0 ≤ s.width.tdiv 2 := Int.tdiv_nonneg hw0 (by decide)
  have a6 : 0 ≤ s.height.tdiv 2 := Int.tdiv_nonneg hh0 (by decide)
  have ex : (getContentArea env s).getX =
      0 + s.width.tdiv 2 - (env.mulToInt (dialogSize s).1).tdiv 2 := rfl
  have ey : (getContentArea env s).getY =
      0 + s.height.tdiv 2 - (env.mulToInt (dialogSize s).2).tdiv 2 := rfl
  rw [ex, ey]
  omega

end OBXf
